import Mathlib

/-
Shallow embedding of the ZEN-garden unit-handling core
(src/preprocess/functions/unit_handling.py, class UnitHandling).

The external unit-knowledge collaborator (pint's UnitRegistry) is modelled
abstractly by a `UnitKnowledge` record: `factors` is the list of unit tokens
of the parsed expression (the first components of `ureg(u).to_tuple()[1]`),
`dims` is the full dimensionality vector of a unit over a fixed global basis
of fundamental dimensions (absent dimensions are zero), and `mag` is the
magnitude of the unit relative to pint's canonical base.  Machine floats are
idealised as exact rationals; Python's `round(x, n)` (banker's rounding to n
decimal digits) is `pyRound`.  `np.linalg.solve` is an exact solver that
fails (a raised LinAlgError) on non-square or singular systems.
-/

set_option maxRecDepth 8000

namespace UnitHandling

/-- External unit-knowledge collaborator (pint registry). -/
structure UnitKnowledge where
  factors : String → List String
  dims : String → List ℚ
  mag : String → ℚ

/-- Entry test of `checkIfPosNegBoolean` (numpy semantics):
`abs(x) == abs(x).astype(bool)`, i.e. the absolute value equals 0 for 0 and
1 otherwise, which holds exactly when the entry is -1, 0 or 1. -/
def pnbQ (x : ℚ) : Bool := decide (|x| = if x = 0 then 0 else 1)

/-- `checkIfPosNegBoolean(array)` with `axis=None` on a vector
(unit_handling.py line 170). -/
def checkIfPosNegBoolean (v : List ℚ) : Bool := v.all pnbQ

/-- `checkIfPosNegBoolean(array, axis=1)` on a matrix: some row consists
purely of -1/0/1 entries (unit_handling.py line 168). -/
def checkIfPosNegBooleanAx1 (m : List (List ℚ)) : Bool := m.any fun r => r.all pnbQ

/-- Errors raised during `getBaseUnits` (construction). -/
inductive BErr where
  | duplicateDim (u : String)
  | ambiguousOrder
  | constructible
  deriving DecidableEq

/-- Errors raised during `getUnitMultiplier` (resolution). -/
inductive UErr where
  | ambiguousHour
  | missingDim
  | linAlg
  | unresolved
  | notDimensionless
  | tolerance
  deriving DecidableEq

instance exceptDecEq {ε α : Type} [DecidableEq ε] [DecidableEq α] :
    DecidableEq (Except ε α) := fun a b =>
  match a, b with
  | .ok x, .ok y => if h : x = y then isTrue (by rw [h]) else isFalse (by simp [h])
  | .error e, .error f => if h : e = f then isTrue (by rw [h]) else isFalse (by simp [h])
  | .ok _, .error _ => isFalse (by simp)
  | .error _, .ok _ => isFalse (by simp)

/-! ### Construction: duplicate handling (getBaseUnits, lines 40-52)

The dimensionality matrix has one column per declared base unit (columns
are labelled by the symbol and may repeat when the same symbol is declared
twice).  `dimMatrix.T.duplicated()` marks every column whose dimensionality
vector equals the vector of an earlier column; for each marked column label
the code distinguishes whether the label itself occurs more than once in
the matrix (same symbol declared twice: warn, drop all, re-append a single
deduplicated column at the end) or occurs once (a distinct symbol sharing
the dimensionality: raise KeyError, line 52). -/

/-- Labels of the columns marked by `dimMatrix.T.duplicated()`, in order:
a column is marked when an earlier column has the same vector. -/
def dupMarkedAux (seen : List (List ℚ)) : List (String × List ℚ) → List String
  | [] => []
  | (n, v) :: rest =>
    if v ∈ seen then n :: dupMarkedAux (v :: seen) rest
    else dupMarkedAux (v :: seen) rest

/-- The loop `for _duplicate in _dimMatrixDuplicate` (lines 44-52): the list
of marked labels is fixed before the loop while the matrix is mutated. -/
def dupDropLoop (K : UnitKnowledge) : List String → List (String × List ℚ) →
    Except BErr (List (String × List ℚ))
  | [], m => .ok m
  | n :: rest, m =>
    if 1 < (m.filter fun c => c.1 = n).length then
      dupDropLoop K rest ((m.filter fun c => c.1 ≠ n) ++ [(n, K.dims n)])
    else .error (.duplicateDim n)

/-- Duplicate detection and resolution of `getBaseUnits` (lines 40-52),
acting on the declared base-unit list. -/
def dupCheck (K : UnitKnowledge) (units : List String) :
    Except BErr (List (String × List ℚ)) :=
  let cols := units.map fun u => (u, K.dims u)
  dupDropLoop K (dupMarkedAux [] cols) cols

/-! ### Construction: dependency reordering and constructibility
(getBaseUnits, lines 69-82)

`dependentDims` are the rows of the echelon transform belonging to the
linearly dependent base units (one row per dependent unit, indexed over all
base-unit columns); `depIdx` are the column positions of the dependent
units in the dimensionality matrix.  Both are outputs of the external
echelon-form routine (pint.util.column_echelon_form) and are taken here as
the inputs of the repository's post-processing. -/

/-- `DimOfDependentUnits = dependentDims[:, idxLinDepDimMatrix]` (line 70). -/
def subMatrix (depDims : List (List ℚ)) (depIdx : List ℕ) : List (List ℚ) :=
  depDims.map fun row => depIdx.map fun j => row.getD j 0

/-- `np.all(np.diag(M) == 1)` (line 72). -/
def diagAllOnes (m : List (List ℚ)) : Bool :=
  (List.range m.length).all fun i => decide ((m.getD i []).getD i 0 = 1)

/-- Positions of the 1-entries of one row, paired with the row index. -/
def posOnesRow (i : ℕ) (row : List ℚ) : List (ℕ × ℕ) :=
  (List.range row.length).filterMap fun j =>
    if row.getD j 0 = 1 then some (i, j) else none

def posOnesAux (i : ℕ) : List (List ℚ) → List (ℕ × ℕ)
  | [] => []
  | row :: rest => posOnesRow i row ++ posOnesAux (i + 1) rest

/-- `np.argwhere(DimOfDependentUnits == 1)` in row-major order (line 74). -/
def posOnes (m : List (List ℚ)) : List (ℕ × ℕ) := posOnesAux 0 m

/-- Reordering step (lines 71-79): when the diagonal of the dependent
sub-matrix is not all ones, assert that the number of 1-entries equals the
number of dependent units and take `dependentDims[posOnes[:, 1], :]`. -/
def reorderDeps (depDims : List (List ℚ)) (depIdx : List ℕ) :
    Except BErr (List (List ℚ)) :=
  let sub := subMatrix depDims depIdx
  if diagAllOnes sub then .ok depDims
  else
    let ps := posOnes sub
    if ps.length = depIdx.length then .ok (ps.map fun p => depDims.getD p.2 [])
    else .error .ambiguousOrder

/-- The assert on line 82: no dependency row may consist purely of -1/0/1
entries. -/
def constructibleCheck (depDims : List (List ℚ)) : Except BErr Unit :=
  if checkIfPosNegBooleanAx1 depDims then .error .constructible else .ok ()

/-- Lines 69-82 of `getBaseUnits`: reorder the dependency rows, then run the
constructibility assert on the reordered rows; on success the reordered rows
are the stored `dimAnalysis["dependentDims"]`. -/
def dependencyChecks (depDims : List (List ℚ)) (depIdx : List ℕ) :
    Except BErr (List (List ℚ)) :=
  match reorderDeps depDims depIdx with
  | .error e => .error e
  | .ok dd =>
    match constructibleCheck dd with
    | .error e => .error e
    | .ok _ => .ok dd

/-- A dependency row restricted to the positions of the independent base
units (all column positions below `n` that are not dependent positions). -/
def indepRestrict (row : List ℚ) (depIdx : List ℕ) (n : ℕ) : List ℚ :=
  ((List.range n).filter fun i => decide (i ∉ depIdx)).map fun i => row.getD i 0

/-! ### Resolution: getUnitMultiplier (lines 90-159) -/

/-- The input of `getUnitMultiplier`: a unit string, or the non-string NaN
that the surrounding model passes for an absent unit. -/
inductive UnitInput where
  | absent
  | str (s : String)

/-- The state of a constructed `UnitHandling` instance as consumed by
`getUnitMultiplier`: the keys of the `baseUnits` dict, the columns of
`dimMatrix`, the stored dependency analysis and the rounding precision. -/
structure UHState where
  K : UnitKnowledge
  dimLen : ℕ
  baseUnits : List String
  dimMatrixCols : List String
  dependentUnits : List String
  dependentDims : List (List ℚ)
  roundingDecimalPoints : ℕ

/-- Entry of the dimensionality vector of a unit at dimension `d`. -/
def dimsAt (K : UnitKnowledge) (c : String) (d : ℕ) : ℚ := (K.dims c).getD d 0

/-- `dimMatrix.index`: the fundamental dimensions discovered from the base
units (those with a nonzero entry in some column). -/
def dimIndex (st : UHState) : List ℕ :=
  (List.range st.dimLen).filter fun d =>
    st.dimMatrixCols.any fun c => decide (dimsAt st.K c d ≠ 0)

/-- A unit's dimensionality vector restricted to `dimMatrix.index`
(the Series `dimVector` of line 108, and a matrix column of line 115). -/
def vecOn (st : UHState) (u : String) : List ℚ :=
  (dimIndex st).map fun d => dimsAt st.K u d

/-- The assert on line 110: every dimension used by the input is covered by
some base unit. -/
def missingDimOK (st : UHState) (u : String) : Bool :=
  (List.range st.dimLen).all fun d =>
    decide (d ∈ dimIndex st ∨ dimsAt st.K u d = 0)

/-- `dimMatrix.isin(dimVector).all(axis=0)` (line 115): the first column
whose vector equals the input's vector. -/
def directCol (st : UHState) (v : List ℚ) : Option String :=
  st.dimMatrixCols.find? fun c => decide (vecOn st c = v)

/-- `(dimMatrix * -1).isin(dimVector).all(axis=0)` (line 119): the first
column whose negated vector equals the input's vector. -/
def inverseCol (st : UHState) (v : List ℚ) : Option String :=
  st.dimMatrixCols.find? fun c => decide ((vecOn st c).map (fun q => -q) = v)

/-- `dimMatrixReduced = dimMatrix.drop(dependentUnits, axis=1)` (line 125). -/
def indepCols (st : UHState) : List String :=
  st.dimMatrixCols.filter fun c => decide (c ∉ st.dependentUnits)

/-- The rows (one per discovered dimension) of the matrix formed by the
given columns. -/
def rowsFor (st : UHState) (cs : List String) : List (List ℚ) :=
  (dimIndex st).map fun d => cs.map fun c => dimsAt st.K c d

/-- One elimination step of Gaussian elimination on augmented rows. -/
def elimRow (p r : List ℚ) : List ℚ :=
  match p, r with
  | p0 :: ps, r0 :: rs => List.zipWith (fun a b => b - r0 / p0 * a) ps rs
  | _, _ => []

/-- Back-substitution for the pivot row. -/
def backSub (p : List ℚ) (xs : List ℚ) : ℚ :=
  match p with
  | p0 :: rest => (rest.getLastD 0 - (List.zipWith (· * ·) rest.dropLast xs).sum) / p0
  | [] => 0

/-- Exact Gaussian elimination on augmented rows; `none` on a singular
system. -/
def solveAug : ℕ → List (List ℚ) → Option (List ℚ)
  | _, [] => some []
  | 0, _ => none
  | fuel + 1, rows =>
    match rows.find? (fun r => decide (r.getD 0 0 ≠ 0)) with
    | none => none
    | some p =>
      match solveAug fuel ((rows.erase p).map (elimRow p)) with
      | none => none
      | some xs => some (backSub p xs :: xs)

/-- `np.linalg.solve(A, b)`: requires a square system (LinAlgError, i.e.
`none`, otherwise or when singular). -/
def npSolve (rows : List (List ℚ)) (b : List ℚ) : Option (List ℚ) :=
  if rows.length = b.length ∧ ∀ r ∈ rows, r.length = rows.length then
    solveAug rows.length (List.zipWith (fun r bi => r ++ [bi]) rows b)
  else none

/-- Integer value of a rational that is a whole number (the solved
exponents pass the -1/0/1 check before being used as powers). -/
def qint (q : ℚ) : ℤ := q.num / (q.den : ℤ)

/-- `combinedUnit *= ureg(unit) ** (-1 * power)` over a solution vector:
the per-unit exponents multiplied into the combined unit (lines 131-132). -/
def mkExtras (cs : List String) (x : List ℚ) : List (String × ℤ) :=
  List.zipWith (fun c xi => (c, -qint xi)) cs x

/-- `combinedUnit.to_base_units().magnitude` (line 155): the input unit's
magnitude times the magnitudes of the multiplied-in base units. -/
def composeMag (K : UnitKnowledge) (u : String) (extras : List (String × ℤ)) : ℚ :=
  K.mag u * (extras.map fun p => K.mag p.1 ^ p.2).prod

/-- `combinedUnit.to_base_units().unitless` (line 153). -/
def combinedDimZero (st : UHState) (u : String) (extras : List (String × ℤ)) : Bool :=
  (List.range st.dimLen).all fun d =>
    decide (dimsAt st.K u d + (extras.map fun p => (p.2 : ℚ) * dimsAt st.K p.1 d).sum = 0)

/-- `checkIfInvalidHourString` (lines 173-178): the parsed factor list of
the unit expression contains the `planck_constant` token. -/
def checkIfInvalidHourString (K : UnitKnowledge) (u : String) : Bool :=
  decide ("planck_constant" ∈ K.factors u)

/-- `list(dimMatrixReduced.columns).index(unit)` (line 140). -/
def idxOf (a : String) : List String → ℕ
  | [] => 0
  | b :: rest => if a = b then 0 else idxOf a rest + 1

/-- The inner loop of the dependency-substitution fallback (lines 139-151):
iterate over the dependent units; when one matches the over-large exponent,
drop the over-powered column, append the dependent unit's column, re-solve,
and accept the first solution that passes the -1/0/1 check. -/
def substInner (st : UHState) (b : List ℚ) (redCols : List String)
    (unit : String) (power : ℚ) :
    List (String × List ℚ) → Except UErr (Option (List (String × ℤ)))
  | [] => .ok none
  | (depUnit, depDim) :: rest =>
    if |depDim.getD (idxOf unit redCols) 0| = |power| then
      let tempCols := (redCols.filter fun c => c ≠ unit) ++ [depUnit]
      match npSolve (rowsFor st tempCols) b with
      | none => .error .linAlg
      | some sol =>
        if checkIfPosNegBoolean sol then .ok (some (mkExtras tempCols sol))
        else substInner st b redCols unit power rest
    else substInner st b redCols unit power rest

/-- The outer loop of the fallback (lines 134-152): scan the solution for a
component of absolute value above 1 and try to substitute; the assert on
line 152 fires when no substitution succeeded. -/
def substOuter (st : UHState) (b : List ℚ) (redCols : List String) :
    List (String × ℚ) → Except UErr (List (String × ℤ))
  | [] => .error .unresolved
  | (unit, power) :: rest =>
    if 1 < |power| then
      match substInner st b redCols unit power
          (st.dependentUnits.zip st.dependentDims) with
      | .error e => .error e
      | .ok (some extras) => .ok extras
      | .ok none => substOuter st b redCols rest
    else substOuter st b redCols rest

/-- Lines 103-152 of `getUnitMultiplier`: the hour guard, the dimensionality
vector with its missing-dimension assert, and the four resolution branches,
producing the base-unit factors multiplied into the combined unit. -/
def resolveExtras (st : UHState) (u : String) : Except UErr (List (String × ℤ)) :=
  if checkIfInvalidHourString st.K u then .error .ambiguousHour
  else if missingDimOK st u then
    let b := vecOn st u
    match directCol st b with
    | some c => .ok [(c, -1)]
    | none =>
      match inverseCol st b with
      | some c => .ok [(c, 1)]
      | none =>
        let red := indepCols st
        match npSolve (rowsFor st red) b with
        | none => .error .linAlg
        | some x =>
          if checkIfPosNegBoolean x then .ok (mkExtras red x)
          else substOuter st b red (red.zip x)
  else .error .missingDim

/-- The rounding tolerance `10 ** (-roundingDecimalPoints)` (line 157). -/
def tolOf (st : UHState) : ℚ := 10 ^ (-(st.roundingDecimalPoints : ℤ))

/-- Python's `round` to an integer: nearest, ties to even. -/
def pyRoundInt (q : ℚ) : ℤ :=
  if q - ⌊q⌋ < 1 / 2 then ⌊q⌋
  else if 1 / 2 < q - ⌊q⌋ then ⌊q⌋ + 1
  else if ⌊q⌋ % 2 = 0 then ⌊q⌋ else ⌊q⌋ + 1

/-- Python's `round(q, n)` to `n` decimal digits. -/
def pyRound (q : ℚ) (n : ℕ) : ℚ := (pyRoundInt (q * 10 ^ n) : ℚ) / 10 ^ n

/-- Lines 157-159: the tolerance assert and the final rounding. -/
def finalize (st : UHState) (m : ℚ) : Except UErr ℚ :=
  if m < tolOf st then .error .tolerance
  else .ok (pyRound m st.roundingDecimalPoints)

/-- Lines 153-159 applied to the resolved combined unit. -/
def resolveTail (st : UHState) (u : String) : Except UErr ℚ :=
  match resolveExtras st u with
  | .error e => .error e
  | .ok extras =>
    if combinedDimZero st u extras then finalize st (composeMag st.K u extras)
    else .error .notDimensionless

/-- `getUnitMultiplier` (lines 90-159). -/
def getUnitMultiplier (st : UHState) (input : UnitInput) : Except UErr ℚ :=
  match input with
  | .str u => if u ∈ st.baseUnits then .ok 1 else resolveTail st u
  | .absent => .ok 1

/-! ### Concrete configurations used as witnesses and counterexamples -/

attribute [local semireducible] Rat.mul Rat.add Rat.sub Rat.inv Rat.ofScientific

/-- Knowledge with two distinct symbols of equal dimensionality and equal
magnitude (pint-style aliases such as a ton written two ways). -/
def K0 : UnitKnowledge where
  factors := fun _ => []
  dims := fun s => if s = "t" then [1] else if s = "ton" then [1] else
    if s = "w" then [2] else []
  mag := fun s => if s = "t" then 1000 else if s = "ton" then 1000 else 1

/-- Knowledge with a mass-like base unit of magnitude 3 and an input unit of
the same dimensionality. -/
def K2 : UnitKnowledge where
  factors := fun _ => []
  dims := fun s => if s = "b" then [1] else if s = "u" then [1] else []
  mag := fun s => if s = "b" then 3 else 1

def st2 : UHState where
  K := K2
  dimLen := 1
  baseUnits := ["b"]
  dimMatrixCols := ["b"]
  dependentUnits := []
  dependentDims := []
  roundingDecimalPoints := 2

/-- pint parses the bare symbol `h` as the Planck constant; here `h` is
itself declared as a base unit. -/
def K3 : UnitKnowledge where
  factors := fun s => if s = "h" then ["planck_constant"] else []
  dims := fun s => if s = "h" then [2, 1, -1] else []
  mag := fun _ => 1

def st3 : UHState where
  K := K3
  dimLen := 3
  baseUnits := ["h"]
  dimMatrixCols := ["h"]
  dependentUnits := []
  dependentDims := []
  roundingDecimalPoints := 6

/-- pint parses `h` and the compound `kg*h` into factor lists containing the
`planck_constant` token; `kg` is the only base unit. -/
def K4 : UnitKnowledge where
  factors := fun s => if s = "h" then ["planck_constant"] else
    if s = "kg*h" then ["kilogram", "planck_constant"] else []
  dims := fun s => if s = "kg" then [1] else [2, 1, -1]
  mag := fun _ => 1

def st4 : UHState where
  K := K4
  dimLen := 3
  baseUnits := ["kg"]
  dimMatrixCols := ["kg"]
  dependentUnits := []
  dependentDims := []
  roundingDecimalPoints := 6

/-- A single energy-like base unit spanning three fundamental dimensions:
the reduced matrix is 3 by 1, so the linear solve of step 5 is non-square. -/
def K5 : UnitKnowledge where
  factors := fun _ => []
  dims := fun s => if s = "E" then [1, 2, -2] else []
  mag := fun _ => 1

def st5 : UHState where
  K := K5
  dimLen := 3
  baseUnits := ["E"]
  dimMatrixCols := ["E"]
  dependentUnits := []
  dependentDims := []
  roundingDecimalPoints := 6

/-- Two independent base units and a compound input resolved by the exact
linear solve with solution vector (1, 1). -/
def K6 : UnitKnowledge where
  factors := fun _ => []
  dims := fun s => if s = "a" then [1, 0] else if s = "b" then [0, 1] else
    if s = "ab" then [1, 1] else []
  mag := fun s => if s = "a" then 10 else if s = "b" then 100 else
    if s = "ab" then 1000 else 1

def st6 : UHState where
  K := K6
  dimLen := 2
  baseUnits := ["a", "b"]
  dimMatrixCols := ["a", "b"]
  dependentUnits := []
  dependentDims := []
  roundingDecimalPoints := 6

/-- A nanogram-like unit converted into a ton-based system: the resolved
multiplier is far below the rounding tolerance. -/
def K7 : UnitKnowledge where
  factors := fun _ => []
  dims := fun s => if s = "t" then [1] else if s = "ng" then [1] else []
  mag := fun s => if s = "t" then 1000 else
    if s = "ng" then 1 / 1000000000000 else 1

def st7 : UHState where
  K := K7
  dimLen := 1
  baseUnits := ["t"]
  dimMatrixCols := ["t"]
  dependentUnits := []
  dependentDims := []
  roundingDecimalPoints := 6

/-! ### Helper lemmas -/

lemma pnbQ_iff (x : ℚ) : pnbQ x = true ↔ x = -1 ∨ x = 0 ∨ x = 1 := by
  unfold pnbQ
  rw [decide_eq_true_eq]
  by_cases h : x = 0
  · simp [h]
  · rw [if_neg h]
    constructor
    · intro habs
      rcases (abs_eq (by norm_num : (0:ℚ) ≤ 1)).mp habs with h1 | h1
      · exact Or.inr (Or.inr h1)
      · exact Or.inl h1
    · rintro (rfl | rfl | rfl)
      · norm_num
      · exact absurd rfl h
      · norm_num

lemma getD_mem {α : Type} (d : α) :
    ∀ (l : List α) (i : ℕ), i < l.length → l.getD i d ∈ l
  | [], i, h => by simp at h
  | a :: l, 0, _ => by simp
  | a :: l, i + 1, h => by
    simp only [List.getD_cons_succ]
    exact List.mem_cons_of_mem a (getD_mem d l i (by simpa using h))

lemma exists_getD_of_mem {α : Type} (d : α) :
    ∀ (l : List α) (a : α), a ∈ l → ∃ i, i < l.length ∧ l.getD i d = a
  | [], a, h => absurd h (List.not_mem_nil a)
  | b :: l, a, h => by
    rcases List.mem_cons.mp h with rfl | h2
    · exact ⟨0, by simp, by simp⟩
    · obtain ⟨i, hi, he⟩ := exists_getD_of_mem d l a h2
      exact ⟨i + 1, by simpa using hi, by simpa using he⟩

lemma map_eq_imp {α β : Type} (f g : α → β) :
    ∀ (l : List α), l.map f = l.map g → ∀ a ∈ l, f a = g a
  | [], _, a, ha => absurd ha (List.not_mem_nil a)
  | b :: l, h, a, ha => by
    rw [List.map_cons, List.map_cons, List.cons_eq_cons] at h
    rcases List.mem_cons.mp ha with rfl | ha2
    · exact h.1
    · exact map_eq_imp f g l h.2 a ha2

lemma map_zipWith_eq {α β γ δ : Type} (f : γ → δ) (g : α → β → γ) :
    ∀ (l : List α) (m : List β),
      (List.zipWith g l m).map f = List.zipWith (fun a b => f (g a b)) l m
  | [], _ => by simp
  | _ :: _, [] => by simp
  | a :: l, b :: m => by
    simp only [List.zipWith_cons_cons, List.map_cons]
    rw [map_zipWith_eq f g l m]

lemma floor_le_pyRoundInt (q : ℚ) : ⌊q⌋ ≤ pyRoundInt q := by
  unfold pyRoundInt
  split
  · exact le_refl _
  · split
    · omega
    · split
      · exact le_refl _
      · omega

lemma one_le_pyRoundInt {q : ℚ} (h : 1 ≤ q) : 1 ≤ pyRoundInt q := by
  have h1 : (1 : ℤ) ≤ ⌊q⌋ := Int.le_floor.mpr (by exact_mod_cast h)
  exact le_trans h1 (floor_le_pyRoundInt q)

lemma zpow_neg_mul_pow (r : ℕ) : (10:ℚ) ^ (-(r:ℤ)) * 10 ^ r = 1 := by
  rw [← zpow_natCast (10:ℚ) r, ← zpow_add₀ (by norm_num : (10:ℚ) ≠ 0)]
  norm_num

lemma tol_le_pyRound {m : ℚ} {r : ℕ} (h : (10:ℚ) ^ (-(r:ℤ)) ≤ m) :
    (10:ℚ) ^ (-(r:ℤ)) ≤ pyRound m r := by
  have hp : (0:ℚ) < 10 ^ r := by positivity
  have hm : (1:ℚ) ≤ m * 10 ^ r := by
    have h2 := mul_le_mul_of_nonneg_right h hp.le
    rwa [zpow_neg_mul_pow r] at h2
  have h3 : (1:ℚ) ≤ (pyRoundInt (m * 10 ^ r) : ℚ) := by
    exact_mod_cast one_le_pyRoundInt hm
  unfold pyRound
  calc (10:ℚ) ^ (-(r:ℤ)) = 1 / 10 ^ r := by
        rw [zpow_neg, zpow_natCast, one_div]
    _ ≤ (pyRoundInt (m * 10 ^ r) : ℚ) / 10 ^ r :=
        (div_le_div_iff_of_pos_right hp).mpr h3
    _ = _ := rfl

lemma tolOf_le_one (st : UHState) : tolOf st ≤ 1 := by
  unfold tolOf
  rw [zpow_neg, zpow_natCast]
  exact inv_le_one_of_one_le₀ (one_le_pow₀ (by norm_num : (1:ℚ) ≤ 10))

/-! ### Claims -/

/-- C1 (counterexample): with `h` itself declared as a base unit — a
configuration in which pint still parses `h` as the Planck constant —
`getUnitMultiplier "h"` returns 1 instead of failing with the ambiguous-unit
error, because the base-unit identity check of line 98 runs before the hour
guard of line 105. -/
theorem C1_counterexample :
    getUnitMultiplier st3 (.str "h") = .ok 1 ∧
    checkIfInvalidHourString st3.K "h" = true ∧
    "h" ∈ st3.baseUnits := by decide

/-- C1 (amended): when pint associates the `planck_constant` token with the
bare symbol `h`, `getUnitMultiplier "h"` fails with the ambiguous-unit error
exactly when `h` is not itself a configured base-unit symbol; when `h` is a
base-unit symbol it returns 1. -/
theorem C1_theorem (st : UHState)
    (hh : checkIfInvalidHourString st.K "h" = true) :
    getUnitMultiplier st (.str "h") =
      (if "h" ∈ st.baseUnits then .ok 1 else .error .ambiguousHour) := by
  by_cases hb : "h" ∈ st.baseUnits
  · simp [getUnitMultiplier, hb]
  · simp [getUnitMultiplier, hb, resolveTail, resolveExtras, hh]

/-- C1 (witness): in a configuration whose only base unit is `kg`, the input
`h` fails with the ambiguous-unit error. -/
theorem C1_witness : getUnitMultiplier st4 (.str "h") = .error .ambiguousHour := by
  have h := C1_theorem st4 (by decide)
  rw [h]
  decide

/-- C2 (counterexample): two distinct base-unit symbols with identical
dimensionality vectors and identical magnitudes are not collapsed with a
warning; construction fails with the duplicate-dimension error (the KeyError
of line 52), because the code branches on whether the duplicated column
label occurs more than once, not on magnitude. -/
theorem C2_counterexample :
    K0.dims "t" = K0.dims "ton" ∧ K0.mag "t" = K0.mag "ton" ∧ "t" ≠ "ton" ∧
    dupCheck K0 ["t", "ton"] = .error (.duplicateDim "ton") := by decide

/-- C2 (amended): the warning-and-drop branch applies exactly when the same
base-unit symbol is declared exactly twice (necessarily with the same
dimensionality and magnitude): the two columns collapse to one with only a
warning.  Two distinct symbols sharing a dimensionality vector fail with the
duplicate-dimension error regardless of their magnitudes, and the same
symbol declared three times also fails with that error: the marked duplicate
labels are collected before the drop loop while the matrix mutates, so the
second visit of the already-collapsed label finds a single column and takes
the error branch of line 52. -/
theorem C2_theorem :
    (∀ (K : UnitKnowledge) (u v : String), u ≠ v → K.dims u = K.dims v →
      dupCheck K [u, v] = .error (.duplicateDim v)) ∧
    (∀ (K : UnitKnowledge) (u : String),
      dupCheck K [u, u] = .ok [(u, K.dims u)]) ∧
    (∀ (K : UnitKnowledge) (u : String),
      dupCheck K [u, u, u] = .error (.duplicateDim u)) := by
  refine ⟨?_, ?_, ?_⟩
  · intro K u v hne hdim
    simp [dupCheck, dupMarkedAux, ← hdim, dupDropLoop, List.filter_cons, hne,
      Ne.symm hne]
  · intro K u
    simp [dupCheck, dupMarkedAux, dupDropLoop, List.filter_cons]
  · intro K u
    simp [dupCheck, dupMarkedAux, dupDropLoop, List.filter_cons]

/-- C2 (witness): `t` and `ton` (equal dimensionality and magnitude) fail
with the duplicate-dimension error; the symbol `w` declared twice collapses
to a single column, while `w` declared three times fails with the
duplicate-dimension error. -/
theorem C2_witness :
    dupCheck K0 ["t", "ton"] = .error (.duplicateDim "ton") ∧
    dupCheck K0 ["w", "w"] = .ok [("w", K0.dims "w")] ∧
    dupCheck K0 ["w", "w", "w"] = .error (.duplicateDim "w") :=
  ⟨C2_theorem.1 K0 "t" "ton" (by decide) (by decide), C2_theorem.2.1 K0 "w",
    C2_theorem.2.2 K0 "w"⟩

/-- C8: for every configured base-unit symbol the multiplier is exactly 1,
whatever the unit-knowledge capability and the rest of the state contain
(line 98 short-circuits every later resolution step). -/
theorem C8_theorem (st : UHState) (b : String) (hb : b ∈ st.baseUnits) :
    getUnitMultiplier st (.str b) = .ok 1 := by
  simp [getUnitMultiplier, hb]

/-- C8 (witness): the base unit `b` of the concrete configuration `st2`
resolves to 1. -/
theorem C8_witness : getUnitMultiplier st2 (.str "b") = .ok 1 :=
  C8_theorem st2 "b" (by decide)

/-- C9 (counterexample): the empty string is not treated as an absent unit:
it enters full resolution, and in a configuration with a single base unit
spanning three fundamental dimensions the linear solve of step 5 is handed a
non-square system and the call fails (a raised LinAlgError) instead of
returning 1. -/
theorem C9_counterexample :
    getUnitMultiplier st5 (.str "") = .error .linAlg := by decide

/-- C9 (amended): only the non-string NaN input (the absent unit) is
unconditionally mapped to multiplier 1 by lines 100-102; the empty string is
an ordinary unit string that undergoes full resolution and need not yield 1. -/
theorem C9_theorem (st : UHState) : getUnitMultiplier st .absent = .ok 1 := rfl

/-- C10: for every unit string that is not a base-unit symbol, if the parsed
factor list contains the `planck_constant` token then `getUnitMultiplier`
fails with the ambiguous-unit error, independently of the dimensionality
data (the guard of line 105 runs before any dimensionality resolution). -/
theorem C10_theorem (st : UHState) (u : String) (hb : u ∉ st.baseUnits)
    (hh : "planck_constant" ∈ st.K.factors u) :
    getUnitMultiplier st (.str u) = .error .ambiguousHour := by
  simp [getUnitMultiplier, hb, resolveTail, resolveExtras,
    checkIfInvalidHourString, hh]

/-- C10 (witness): the compound unit string `kg*h`, whose parsed factors are
`kilogram` and `planck_constant`, fails with the ambiguous-unit error. -/
theorem C10_witness : getUnitMultiplier st4 (.str "kg*h") = .error .ambiguousHour :=
  C10_theorem st4 "kg*h" (by decide) (by decide)

/-- C7: (1) for every input that reaches the final sanity checks (a resolved
combined unit whose dimensionality cancels), `getUnitMultiplier` fails with
the tolerance error exactly when the resolved magnitude is strictly below
`10^(-roundingDecimalPoints)`, and otherwise returns the magnitude rounded
to `roundingDecimalPoints` decimal digits; (2) every successfully returned
multiplier, over all branches, is at least `10^(-roundingDecimalPoints)`. -/
theorem C7_theorem :
    (∀ (st : UHState) (u : String) (extras : List (String × ℤ)),
      u ∉ st.baseUnits →
      resolveExtras st u = .ok extras →
      combinedDimZero st u extras = true →
      getUnitMultiplier st (.str u) =
        (if composeMag st.K u extras < tolOf st then .error .tolerance
         else .ok (pyRound (composeMag st.K u extras)
            st.roundingDecimalPoints))) ∧
    (∀ (st : UHState) (inp : UnitInput) (v : ℚ),
      getUnitMultiplier st inp = .ok v → tolOf st ≤ v) := by
  constructor
  · intro st u extras hb hre hz
    simp [getUnitMultiplier, hb, resolveTail, hre, hz, finalize]
  · intro st inp v hok
    match inp with
    | .absent =>
      simp only [getUnitMultiplier, Except.ok.injEq] at hok
      rw [← hok]
      exact tolOf_le_one st
    | .str u =>
      by_cases hb : u ∈ st.baseUnits
      · simp only [getUnitMultiplier, hb, if_true, Except.ok.injEq] at hok
        rw [← hok]
        exact tolOf_le_one st
      · simp only [getUnitMultiplier, hb, if_false] at hok
        unfold resolveTail at hok
        cases hre : resolveExtras st u with
        | error e => rw [hre] at hok; simp at hok
        | ok extras =>
          rw [hre] at hok
          dsimp only at hok
          by_cases hz : combinedDimZero st u extras = true
          · rw [if_pos hz] at hok
            unfold finalize at hok
            by_cases hlt : composeMag st.K u extras < tolOf st
            · rw [if_pos hlt] at hok; simp at hok
            · rw [if_neg hlt] at hok
              simp only [Except.ok.injEq] at hok
              rw [← hok]
              have h2 := not_lt.mp hlt
              unfold tolOf at h2 ⊢
              exact tol_le_pyRound h2
          · rw [if_neg hz] at hok; simp at hok

/-- C7 (witness): a nanogram-like unit in a ton-based system with rounding
precision 6 resolves to a magnitude below the tolerance and fails. -/
theorem C7_witness : getUnitMultiplier st7 (.str "ng") = .error .tolerance := by
  have h := C7_theorem.1 st7 "ng" [("t", -1)] (by decide) (by decide) (by decide)
  rw [h, if_pos (by decide)]

/-- C5: whenever an input unit is resolved through the exact linear solve
(step 5: no direct or inverse base-unit match, square solvable system,
solution vector entirely within -1/0/1) and passes the final checks, the
returned multiplier equals the unit's magnitude times the product over the
independent base units of each unit's magnitude raised to the negated
solution exponent, rounded to `roundingDecimalPoints` decimal digits. -/
theorem C5_theorem (st : UHState) (u : String) (x : List ℚ)
    (hb : u ∉ st.baseUnits)
    (hh : checkIfInvalidHourString st.K u = false)
    (hm : missingDimOK st u = true)
    (hd : directCol st (vecOn st u) = none)
    (hi : inverseCol st (vecOn st u) = none)
    (hs : npSolve (rowsFor st (indepCols st)) (vecOn st u) = some x)
    (hx : checkIfPosNegBoolean x = true)
    (hz : combinedDimZero st u (mkExtras (indepCols st) x) = true)
    (ht : tolOf st ≤ composeMag st.K u (mkExtras (indepCols st) x)) :
    getUnitMultiplier st (.str u) =
      .ok (pyRound (st.K.mag u *
          (List.zipWith (fun c xi => st.K.mag c ^ (-qint xi))
            (indepCols st) x).prod)
        st.roundingDecimalPoints) := by
  have hmag : composeMag st.K u (mkExtras (indepCols st) x) =
      st.K.mag u * (List.zipWith (fun c xi => st.K.mag c ^ (-qint xi))
        (indepCols st) x).prod := by
    unfold composeMag mkExtras
    rw [map_zipWith_eq]
  rw [← hmag]
  simp [getUnitMultiplier, hb, resolveTail, resolveExtras, hh, hm, hd, hi, hs,
    hx, hz, finalize, not_lt.mpr ht]

/-- C5 (witness): with base units `a` and `b` and the compound `ab`, the
solve path yields the solution (1, 1) and the multiplier 1. -/
theorem C5_witness : getUnitMultiplier st6 (.str "ab") = .ok 1 := by
  have h := C5_theorem st6 "ab" [1, 1] (by decide) (by decide) (by decide)
    (by decide) (by decide) (by decide) (by decide) (by decide) (by decide)
  rw [h]
  decide

lemma dimsAt_eq_zero_of_not_mem (st : UHState) (c : String)
    (hc : c ∈ st.dimMatrixCols) {d : ℕ} (hd : d < st.dimLen)
    (h : d ∉ dimIndex st) : dimsAt st.K c d = 0 := by
  by_contra hne
  apply h
  unfold dimIndex
  refine List.mem_filter.mpr ⟨List.mem_range.mpr hd, ?_⟩
  exact List.any_eq_true.mpr ⟨c, hc, decide_eq_true hne⟩

lemma input_dimsAt_eq_zero (st : UHState) (u : String)
    (hm : missingDimOK st u = true) {d : ℕ} (hd : d < st.dimLen)
    (h : d ∉ dimIndex st) : dimsAt st.K u d = 0 := by
  unfold missingDimOK at hm
  have h2 := List.all_eq_true.mp hm d (List.mem_range.mpr hd)
  rcases of_decide_eq_true h2 with h3 | h3
  · exact absurd h3 h
  · exact h3

lemma combinedDimZero_direct (st : UHState) (u c : String)
    (hm : missingDimOK st u = true)
    (hc : directCol st (vecOn st u) = some c) :
    combinedDimZero st u [(c, -1)] = true := by
  have hc2 := hc
  unfold directCol at hc2
  have hcm : c ∈ st.dimMatrixCols := List.mem_of_find?_eq_some hc2
  have hvec : vecOn st c = vecOn st u := by
    have hp := List.find?_some hc2
    simpa using hp
  have hpt : ∀ d ∈ dimIndex st, dimsAt st.K c d = dimsAt st.K u d := by
    unfold vecOn at hvec
    exact map_eq_imp _ _ (dimIndex st) hvec
  unfold combinedDimZero
  apply List.all_eq_true.mpr
  intro d hd
  apply decide_eq_true
  have hd2 : d < st.dimLen := List.mem_range.mp hd
  simp only [List.map_cons, List.map_nil, List.sum_cons, List.sum_nil]
  by_cases hmem : d ∈ dimIndex st
  · rw [← hpt d hmem]
    push_cast
    ring
  · rw [dimsAt_eq_zero_of_not_mem st c hcm hd2 hmem,
      input_dimsAt_eq_zero st u hm hd2 hmem]
    norm_num

lemma combinedDimZero_inverse (st : UHState) (u c : String)
    (hm : missingDimOK st u = true)
    (hc : inverseCol st (vecOn st u) = some c) :
    combinedDimZero st u [(c, 1)] = true := by
  have hc2 := hc
  unfold inverseCol at hc2
  have hcm : c ∈ st.dimMatrixCols := List.mem_of_find?_eq_some hc2
  have hvec : (vecOn st c).map (fun q => -q) = vecOn st u := by
    have hp := List.find?_some hc2
    simpa using hp
  have hpt : ∀ d ∈ dimIndex st, -dimsAt st.K c d = dimsAt st.K u d := by
    unfold vecOn at hvec
    rw [List.map_map] at hvec
    intro d hd
    exact map_eq_imp _ _ (dimIndex st) hvec d hd
  unfold combinedDimZero
  apply List.all_eq_true.mpr
  intro d hd
  apply decide_eq_true
  have hd2 : d < st.dimLen := List.mem_range.mp hd
  simp only [List.map_cons, List.map_nil, List.sum_cons, List.sum_nil]
  by_cases hmem : d ∈ dimIndex st
  · rw [← hpt d hmem]
    push_cast
    ring
  · rw [dimsAt_eq_zero_of_not_mem st c hcm hd2 hmem,
      input_dimsAt_eq_zero st u hm hd2 hmem]
    norm_num

/-- C6 (amended): for an input unit that is not a base-unit symbol and
reaches step 4, if the first base-unit column equal to the input's
dimensionality vector is `c`, the combined unit is the input times `c` to
the power -1 (so the resolved magnitude is `mag u * mag c ^ (-1)`); if no
column matches but the first column whose negation matches is `c`, the
combined unit is the input times `c` to the power +1; the returned
multiplier is that magnitude rounded to `roundingDecimalPoints` decimal
digits, provided it passes the tolerance check (the claim's phrase "the
returned multiplier is the combined unit's magnitude" holds only up to this
rounding and tolerance gate). -/
theorem C6_theorem (st : UHState) (u c : String)
    (hb : u ∉ st.baseUnits)
    (hh : checkIfInvalidHourString st.K u = false)
    (hm : missingDimOK st u = true) :
    (directCol st (vecOn st u) = some c →
      getUnitMultiplier st (.str u) =
        (if st.K.mag u * st.K.mag c ^ (-1 : ℤ) < tolOf st then .error .tolerance
         else .ok (pyRound (st.K.mag u * st.K.mag c ^ (-1 : ℤ))
            st.roundingDecimalPoints))) ∧
    (directCol st (vecOn st u) = none → inverseCol st (vecOn st u) = some c →
      getUnitMultiplier st (.str u) =
        (if st.K.mag u * st.K.mag c ^ (1 : ℤ) < tolOf st then .error .tolerance
         else .ok (pyRound (st.K.mag u * st.K.mag c ^ (1 : ℤ))
            st.roundingDecimalPoints))) := by
  constructor
  · intro hc
    have hz := combinedDimZero_direct st u c hm hc
    have hmag : composeMag st.K u [(c, -1)] =
        st.K.mag u * st.K.mag c ^ (-1 : ℤ) := by
      unfold composeMag
      simp
    rw [← hmag]
    simp [getUnitMultiplier, hb, resolveTail, resolveExtras, hh, hm, hc, hz,
      finalize]
  · intro hd hc
    have hz := combinedDimZero_inverse st u c hm hc
    have hmag : composeMag st.K u [(c, 1)] =
        st.K.mag u * st.K.mag c ^ (1 : ℤ) := by
      unfold composeMag
      simp
    rw [← hmag]
    simp [getUnitMultiplier, hb, resolveTail, resolveExtras, hh, hm, hd, hc, hz,
      finalize]

/-- C6 (counterexample): in the configuration `st2` (base unit `b` of
magnitude 3, input `u` of magnitude 1 with the same dimensionality, rounding
precision 2), the direct match applies and the combined unit's magnitude is
1/3, but the returned multiplier is the rounded 33/100, not the magnitude. -/
theorem C6_counterexample :
    directCol st2 (vecOn st2 "u") = some "b" ∧
    composeMag st2.K "u" [("b", -1)] = 1 / 3 ∧
    getUnitMultiplier st2 (.str "u") = .ok (33 / 100) ∧
    (33 / 100 : ℚ) ≠ 1 / 3 := by decide

/-- C6 (witness): the direct-match branch of `st2` returns the rounded
value 33/100. -/
theorem C6_witness : getUnitMultiplier st2 (.str "u") = .ok (33 / 100) := by
  have h := (C6_theorem st2 "u" "b" (by decide) (by decide) (by decide)).1
    (by decide)
  rw [h, if_neg (by decide)]
  decide

lemma mem_indepRestrict {row : List ℚ} {depIdx : List ℕ} {n i : ℕ}
    (hi : i < n) (hni : i ∉ depIdx) :
    row.getD i 0 ∈ indepRestrict row depIdx n := by
  unfold indepRestrict
  apply List.mem_map.mpr
  exact ⟨i, List.mem_filter.mpr ⟨List.mem_range.mpr hi, decide_eq_true hni⟩, rfl⟩

lemma indepRestrict_mem {row : List ℚ} {depIdx : List ℕ} {n : ℕ} {q : ℚ}
    (h : q ∈ indepRestrict row depIdx n) :
    ∃ i, i < n ∧ i ∉ depIdx ∧ row.getD i 0 = q := by
  unfold indepRestrict at h
  obtain ⟨i, hif, he⟩ := List.mem_map.mp h
  have h2 := List.mem_filter.mp hif
  exact ⟨i, List.mem_range.mp h2.1, of_decide_eq_true h2.2, he⟩

lemma row_pure_iff_restrict (row : List ℚ) (depIdx : List ℕ) (n : ℕ)
    (hlen : row.length = n)
    (hdep : ∀ j ∈ depIdx, row.getD j 0 = 0 ∨ row.getD j 0 = 1) :
    (row.all pnbQ = true ↔
      ∀ q ∈ indepRestrict row depIdx n, q = -1 ∨ q = 0 ∨ q = 1) := by
  constructor
  · intro hall q hq
    obtain ⟨i, hi, _, he⟩ := indepRestrict_mem hq
    have hmem : row.getD i 0 ∈ row := getD_mem 0 row i (by omega)
    rw [← he]
    exact (pnbQ_iff _).mp (List.all_eq_true.mp hall _ hmem)
  · intro hres
    apply List.all_eq_true.mpr
    intro q hq
    obtain ⟨i, hi, he⟩ := exists_getD_of_mem 0 row q hq
    rw [pnbQ_iff, ← he]
    by_cases hd : i ∈ depIdx
    · rcases hdep i hd with h0 | h1
      · exact Or.inr (Or.inl h0)
      · exact Or.inr (Or.inr h1)
    · exact hres _ (mem_indepRestrict (by omega) hd)

/-- C3: assuming the collaborator invariant that the reordered dependency
rows carry only 0 or 1 entries at the dependent units' own column positions
(each row has a 1 at its own column and 0 at the other dependent columns,
as the left-nullspace rows of the exact echelon transform do), the
dependency analysis fails with the constructibility error if and only if
some dependency row restricted to the independent base units consists
purely of -1/0/1 values — equivalently (and as literally implemented on
line 82) iff some full row over all base units does. -/
theorem C3_theorem (depDims dd : List (List ℚ)) (depIdx : List ℕ) (n : ℕ)
    (hre : reorderDeps depDims depIdx = .ok dd)
    (hlen : ∀ row ∈ dd, row.length = n)
    (hdep : ∀ row ∈ dd, ∀ j ∈ depIdx, row.getD j 0 = 0 ∨ row.getD j 0 = 1) :
    (dependencyChecks depDims depIdx = .error .constructible ↔
      ∃ row ∈ dd, ∀ q ∈ indepRestrict row depIdx n,
        q = -1 ∨ q = 0 ∨ q = 1) := by
  unfold dependencyChecks
  rw [hre]
  dsimp only
  by_cases hc : checkIfPosNegBooleanAx1 dd = true
  · have hcc : constructibleCheck dd = .error .constructible := by
      unfold constructibleCheck
      rw [if_pos hc]
    rw [hcc]
    dsimp only
    constructor
    · intro _
      obtain ⟨row, hrow, hall⟩ := List.any_eq_true.mp hc
      exact ⟨row, hrow, (row_pure_iff_restrict row depIdx n (hlen row hrow)
        (hdep row hrow)).mp hall⟩
    · intro _
      rfl
  · have hcc : constructibleCheck dd = .ok () := by
      unfold constructibleCheck
      rw [if_neg hc]
    rw [hcc]
    dsimp only
    constructor
    · intro habs
      exact absurd habs (by simp)
    · rintro ⟨row, hrow, hres⟩
      exact absurd (List.any_eq_true.mpr ⟨row, hrow,
        (row_pure_iff_restrict row depIdx n (hlen row hrow)
          (hdep row hrow)).mpr hres⟩) hc

/-- C3 (witness): one dependent unit at column 1 of a two-unit system with
dependency row (1, 1): the restriction to the independent unit is (1),
purely within -1/0/1, and the analysis fails with the constructibility
error. -/
theorem C3_witness : dependencyChecks [[1, 1]] [1] = .error .constructible := by
  have h := C3_theorem [[1, 1]] [[1, 1]] [1] 2 (by decide) (by decide)
    (by decide)
  exact h.mpr ⟨[1, 1], by decide, by decide⟩

/-- C4: evaluation at the failing input. Three dependent units occupy
columns 1, 2 and 3 and their rows carry the 1-entries in a 3-cycle
arrangement (row 0 has its 1 at column 2, row 1 at column 3, row 2 at
column 1). The reordering step completes without error, yet the reordered
rows do not have 1 on the diagonal of the dependent sub-matrix — row 0 of
the result has entry 0, not 1, at its own column 1 — because line 79
permutes the rows by `posOnes[:, 1]`, applying the permutation of
one-positions instead of its inverse. -/
theorem C4_theorem :
    dependencyChecks [[2, 0, 1, 0], [2, 0, 0, 1], [2, 1, 0, 0]] [1, 2, 3] =
      .ok [[2, 0, 0, 1], [2, 1, 0, 0], [2, 0, 1, 0]] ∧
    diagAllOnes (subMatrix [[2, 0, 0, 1], [2, 1, 0, 0], [2, 0, 1, 0]]
      [1, 2, 3]) = false ∧
    (([[2, 0, 0, 1], [2, 1, 0, 0], [2, 0, 1, 0]] :
      List (List ℚ)).getD 0 []).getD 1 0 ≠ 1 := by decide

end UnitHandling
